import Mathlib

/-!
Verification development for the journal/log splitting and merging scripts
(`logfile_splitter.py`, `journal_organizer.py`, `journal_converter.py`).
The Python routines are shallowly embedded as executable Lean functions:
strings are lists of characters, the filesystem is an association list from
path to content, and I/O failures are injected through oracle parameters.
-/

namespace JournalAgg

/-! ## Calendar-date helpers (model of CPython date validation) -/

def isLeapYear (y : Nat) : Bool :=
  (y % 4 == 0 && y % 100 != 0) || (y % 400 == 0)

def daysInMonth (y m : Nat) : Nat :=
  if m == 2 then (if isLeapYear y then 29 else 28)
  else if m == 4 || m == 6 || m == 9 || m == 11 then 30
  else 31

/-- Whether `(y, m, d)` is accepted by `datetime.date` (`MINYEAR = 1`,
`MAXYEAR = 9999`). -/
def validDate (y m d : Nat) : Bool :=
  1 ≤ y && y ≤ 9999 && 1 ≤ m && m ≤ 12 && 1 ≤ d && d ≤ daysInMonth y m

def natOfDigits (cs : List Char) : Nat :=
  cs.foldl (fun a c => a * 10 + (c.toNat - 48)) 0

def pad2 (n : Nat) : String :=
  if n < 10 then "0" ++ toString n else toString n

def pad4 (n : Nat) : String :=
  if n < 10 then "000" ++ toString n
  else if n < 100 then "00" ++ toString n
  else if n < 1000 then "0" ++ toString n
  else toString n

/-- `strftime("%Y_%m_%d")` on a (modern, four-digit-year) date. -/
def fmtYmdU (y m d : Nat) : String :=
  pad4 y ++ "_" ++ pad2 m ++ "_" ++ pad2 d

/-- ASCII whitespace recognized by the `\s` class (the inputs at issue are
ASCII, so the extra Unicode members of `\s` are irrelevant). -/
def isSpaceChar (c : Char) : Bool :=
  c == ' ' || c == '\t' || c == '\n' || c == '\r' || c == '\x0b' || c == '\x0c'

/-! ## Splitter boundary regex

Model of `re.search` with the pattern
`\[(\d{1,2})/(\d{1,2})/(\d{2}),\s*(\d{1,2}:\d{2}:\d{2})\s*(AM|PM)\].*`
from `logfile_splitter.py`.  The trailing `.*` always matches and is dropped.
Each matcher consumes from a list of characters and mirrors the greedy
matching (with backtracking from two digits to one) of the regex engine. -/

/-- `(\d{1,2})/` : one or two digits followed by a slash; the two-digit
alternative is preferred, as the greedy quantifier does. -/
def matchMD (cs : List Char) : Option (String × List Char) :=
  match cs with
  | a :: b :: c :: rest =>
    if a.isDigit && b.isDigit && c == '/' then some (⟨[a, b]⟩, rest)
    else if a.isDigit && b == '/' then some (⟨[a]⟩, c :: rest)
    else none
  | [a, b] => if a.isDigit && b == '/' then some (⟨[a]⟩, []) else none
  | _ => none

/-- `(\d{2}),` : exactly two digits followed by a comma. -/
def matchY2 (cs : List Char) : Option (String × List Char) :=
  match cs with
  | a :: b :: c :: rest =>
    if a.isDigit && b.isDigit && c == ',' then some (⟨[a, b]⟩, rest) else none
  | _ => none

/-- `\d{1,2}:` (the hour of the time group). -/
def matchHour (cs : List Char) : Option (List Char) :=
  match cs with
  | a :: b :: c :: rest =>
    if a.isDigit && b.isDigit && c == ':' then some rest
    else if a.isDigit && b == ':' then some (c :: rest)
    else none
  | [a, b] => if a.isDigit && b == ':' then some [] else none
  | _ => none

/-- `\d{2}:\d{2}` (minutes and seconds). -/
def matchMMSS (cs : List Char) : Option (List Char) :=
  match cs with
  | a :: b :: c :: d :: e :: rest =>
    if a.isDigit && b.isDigit && c == ':' && d.isDigit && e.isDigit then some rest
    else none
  | _ => none

/-- `(AM|PM)`. -/
def matchAmPm (cs : List Char) : Option (List Char) :=
  match cs with
  | a :: b :: rest =>
    if (a == 'A' || a == 'P') && b == 'M' then some rest else none
  | _ => none

/-- Attempt the whole bracketed tag at this position, returning the three
captured groups (month, day, two-digit year) on success. -/
def matchTagAt (cs : List Char) : Option (String × String × String) :=
  match cs with
  | [] => none
  | c :: rest =>
    if c == '[' then
      (matchMD rest).bind fun p1 =>
      (matchMD p1.2).bind fun p2 =>
      (matchY2 p2.2).bind fun p3 =>
      (matchHour (p3.2.dropWhile isSpaceChar)).bind fun r5 =>
      (matchMMSS r5).bind fun r6 =>
      (matchAmPm (r6.dropWhile isSpaceChar)).bind fun r8 =>
      (match r8 with
       | c8 :: _ => if c8 == ']' then some (p1.1, p2.1, p3.1) else none
       | [] => none)
    else none

/-- Leftmost match, as `re.search` finds it. -/
def searchTag : List Char → Option (String × String × String)
  | [] => none
  | c :: rest =>
    match matchTagAt (c :: rest) with
    | some g => some g
    | none => searchTag rest

def searchBoundary (line : String) : Option (String × String × String) :=
  searchTag line.data

/-! ## `datetime.strptime` with formats `%Y-%m-%d` and `%Y_%m_%d`

CPython's `_strptime` compiles `%Y` to exactly four digits, `%m` to
`1[0-2]|0[1-9]|[1-9]`, `%d` to `3[01]|[12]\d|0[1-9]|[1-9]`, requires the
whole string to be consumed, and then the `datetime` constructor rejects
non-calendar dates. -/

/-- The `%m` directive followed by the literal separator. -/
def parseMonthThen (sep : Char) (cs : List Char) : Option (Nat × List Char) :=
  match cs with
  | a :: b :: c :: rest =>
    if a == '1' && ('0' ≤ b && b ≤ '2') && c == sep then some (natOfDigits [a, b], rest)
    else if a == '0' && ('1' ≤ b && b ≤ '9') && c == sep then some (natOfDigits [a, b], rest)
    else if ('1' ≤ a && a ≤ '9') && b == sep then some (natOfDigits [a], c :: rest)
    else none
  | [a, b] => if ('1' ≤ a && a ≤ '9') && b == sep then some (natOfDigits [a], []) else none
  | _ => none

/-- The `%d` directive at the end of the format (the remaining input must be
exactly the day). -/
def parseDayEnd (cs : List Char) : Option Nat :=
  match cs with
  | [a, b] =>
    if a == '3' && (b == '0' || b == '1') then some (natOfDigits [a, b])
    else if (a == '1' || a == '2') && b.isDigit then some (natOfDigits [a, b])
    else if a == '0' && ('1' ≤ b && b ≤ '9') then some (natOfDigits [a, b])
    else none
  | [a] => if '1' ≤ a && a ≤ '9' then some (natOfDigits [a]) else none
  | _ => none

/-- `datetime.strptime(s, "%Y<sep>%m<sep>%d")`, returning the date or `none`
for the raised `ValueError`. -/
def strptimeSep (sep : Char) (s : String) : Option (Nat × Nat × Nat) :=
  match s.data with
  | y1 :: y2 :: y3 :: y4 :: c :: rest =>
    if y1.isDigit && y2.isDigit && y3.isDigit && y4.isDigit && c == sep then
      (parseMonthThen sep rest).bind fun p =>
      (parseDayEnd p.2).bind fun d =>
      let y := natOfDigits [y1, y2, y3, y4]
      if validDate y p.1 d then some (y, p.1, d) else none
    else none
  | _ => none

def strptimeYmd : String → Option (Nat × Nat × Nat) := strptimeSep '-'

def strptimeYmdU : String → Option (Nat × Nat × Nat) := strptimeSep '_'

/-! ## The splitter scan (`logfile_splitter.process_log_file`)

The scan state carries the list of finished output files (name and content,
in the order they were closed), the currently open output handle with the
content written so far, the buffered body lines of the current segment, a
trace of handle open/close events, a count of input lines consumed, and
whether an uncaught exception ended the scan.  I/O failures are injected by
three oracles: `oF` (the `open` call raises `IOError`), `wF` (a header write
after a successful `open` raises `IOError`), `fF` (a buffered body write
during a flush raises, which propagates to the outer handler and ends the
scan; the `finally` block then closes the handle). -/

inductive HEvent where
  | opened (n : String)
  | closed (n : String)
deriving DecidableEq

structure SState where
  files : List (String × String)
  handler : Option (String × String)
  buffer : List String
  events : List HEvent
  readCount : Nat
  aborted : Bool
deriving DecidableEq

def initSState : SState :=
  { files := [], handler := none, buffer := [], events := [], readCount := 0,
    aborted := false }

/-- Write the buffered segment lines and close the current output file, if
one is open (lines 34–39 and 103–108 of the source). -/
def flushClose (fF : String → Bool) (st : SState) : SState :=
  match st.handler with
  | none => st
  | some nc =>
    if fF nc.1 then
      { st with handler := none, buffer := [],
                events := st.events ++ [.closed nc.1], aborted := true }
    else
      { st with files := st.files ++ [(nc.1, nc.2 ++ String.join st.buffer)],
                handler := none, buffer := [],
                events := st.events ++ [.closed nc.1] }

/-- One iteration of the `for line in infile` loop. -/
def stepLine (u : String) (oF wF fF : String → Bool) (st : SState)
    (line : String) : SState :=
  if st.aborted then st
  else
    let st0 := { st with readCount := st.readCount + 1 }
    match searchBoundary line with
    | some g =>
      let st1 := flushClose fF st0
      if st1.aborted then st1
      else
        match strptimeYmd (g.2.2 ++ "-" ++ g.1 ++ "-" ++ g.2.1) with
        | none => { st1 with handler := none, buffer := [] }
        | some ymd =>
          let fname := fmtYmdU ymd.1 ymd.2.1 ymd.2.2 ++ ".md"
          if oF fname then { st1 with handler := none, buffer := [] }
          else if wF fname then
            { st1 with handler := none, buffer := [],
                       events := st1.events ++ [.opened fname] }
          else
            { st1 with
                handler := some (fname,
                  line ++ " " ++ u ++ ": " ++ " " ++ fname ++ ": "),
                events := st1.events ++ [.opened fname] }
    | none =>
      match st0.handler with
      | some _ => { st0 with buffer := st0.buffer ++ [line] }
      | none => st0

/-- The whole scan over the input lines, followed by the end-of-input flush. -/
def processLogFile (lines : List String) (u : String)
    (oF wF fF : String → Bool) : SState :=
  let fin := lines.foldl (stepLine u oF wF fF) initSState
  if fin.aborted then fin else flushClose fF fin

/-! ## Filesystem model

A directory is an association list from file name (or relative path) to
content.  `fsSet` creates or overwrites one entry, `fsRemove` deletes one. -/

def fsSet : List (String × String) → String → String → List (String × String)
  | [], k, v => [(k, v)]
  | kv :: t, k, v => if kv.1 == k then (k, v) :: t else kv :: fsSet t k v

def fsRemove : List (String × String) → String → List (String × String)
  | [], _ => []
  | kv :: t, k => if kv.1 == k then t else kv :: fsRemove t k

/-- Character-level `str.take` (Python slicing `s[:n]` counts characters). -/
def strTake (s : String) (n : Nat) : String := ⟨s.data.take n⟩

/-- Character-level `s[n:]`. -/
def strDrop (s : String) (n : Nat) : String := ⟨s.data.drop n⟩

/-- `str.startswith`. -/
def strStartsWith (s p : String) : Bool := p.data.isPrefixOf s.data

/-- Whether `t` occurs in `s` as a contiguous substring (`t in s`). -/
def strContains (s t : String) : Bool :=
  (List.range (s.data.length + 1)).any fun i => t.data.isPrefixOf (s.data.drop i)

def lowerChar (c : Char) : Char :=
  if 'A' ≤ c && c ≤ 'Z' then Char.ofNat (c.toNat + 32) else c

/-- `str.lower()` restricted to ASCII (the only case the scripts depend on). -/
def asciiLower (s : String) : String := ⟨s.data.map lowerChar⟩

/-- Index of the last `.` in a character list, if any. -/
def lastDotIdx (cs : List Char) : Option Nat :=
  match cs.reverse.findIdx? (· == '.') with
  | none => none
  | some j => some (cs.length - 1 - j)

/-- `os.path.splitext` on a bare file name: split at the last dot unless every
character before it is itself a dot. -/
def splitext (fn : String) : String × String :=
  let cs := fn.data
  match lastDotIdx cs with
  | none => (fn, "")
  | some i =>
    if (cs.take i).any (fun c => c != '.') then (⟨cs.take i⟩, ⟨cs.drop i⟩)
    else (fn, "")

/-! ## The directory organizer (`journal_organizer.organize_and_merge_files_by_date`)

Model of the per-file loop: `searchYmdU` is `re.search(r'(\d{4})_(\d{2})_(\d{2})',
filename)`; a match yields the destination path `<year>/<date_str><ext>` under
the output root.  If the destination exists the source content is appended
(after the ensure-trailing-newline fix) and the source is removed on success;
otherwise the source is moved.  The oracle `orc` injects merge failures:
`orc fn = some k` means the merge for source `fn` raises after `k` characters
of the appended text reached the destination (`k = 0`: the read of the source
failed; large `k`: the append succeeded but `os.remove` failed). -/

/-- One attempt of `(\d{4})_(\d{2})_(\d{2})` at the current position. -/
def matchYmdUAt (cs : List Char) : Option (String × String × String) :=
  match cs with
  | y1 :: y2 :: y3 :: y4 :: u1 :: m1 :: m2 :: u2 :: d1 :: d2 :: _ =>
    if y1.isDigit && y2.isDigit && y3.isDigit && y4.isDigit && u1 == '_' &&
       m1.isDigit && m2.isDigit && u2 == '_' && d1.isDigit && d2.isDigit then
      some (⟨[y1, y2, y3, y4]⟩, ⟨[m1, m2]⟩, ⟨[d1, d2]⟩)
    else none
  | _ => none

def searchYmdUList : List Char → Option (String × String × String)
  | [] => none
  | c :: rest =>
    match matchYmdUAt (c :: rest) with
    | some g => some g
    | none => searchYmdUList rest

/-- Leftmost occurrence of the `YYYY_MM_DD` digit pattern in a file name. -/
def searchYmdU (s : String) : Option (String × String × String) :=
  searchYmdUList s.data

/-- The destination path the organizer computes for a matched file name. -/
def orgPath (fn y mo d : String) : String :=
  y ++ "/" ++ (y ++ "_" ++ mo ++ "_" ++ d) ++ (splitext fn).2

/-- The newline fix (add `'\n'` when the destination is non-empty and does not
already end with one) followed by the source content. -/
def orgAppendix (old src : String) : String :=
  (if !old.isEmpty && old.data.getLast? != some '\n' then "\n" else "") ++ src

structure OrgState where
  inRem : List (String × String)
  outFS : List (String × String)
  moved : Nat
  merged : Nat
  skipped : Nat
deriving DecidableEq

/-- One iteration of the organizer's `for filename in os.listdir(input_dir)`
loop, for the file `f.1` with content `f.2`. -/
def orgStep (orc : String → Option Nat) (st : OrgState) (f : String × String) :
    OrgState :=
  match searchYmdU f.1 with
  | none => { st with skipped := st.skipped + 1 }
  | some g =>
    let path := orgPath f.1 g.1 g.2.1 g.2.2
    match List.lookup path st.outFS with
    | some old =>
      match orc f.1 with
      | none =>
        { st with outFS := fsSet st.outFS path (old ++ orgAppendix old f.2),
                  inRem := fsRemove st.inRem f.1,
                  merged := st.merged + 1 }
      | some k =>
        { st with outFS := fsSet st.outFS path (old ++ strTake (orgAppendix old f.2) k),
                  skipped := st.skipped + 1 }
    | none =>
      { st with outFS := fsSet st.outFS path f.2,
                inRem := fsRemove st.inRem f.1,
                moved := st.moved + 1 }

/-- The whole organizer run over the snapshot of the input directory. -/
def orgRun (inputs : List (String × String)) (out0 : List (String × String))
    (orc : String → Option Nat) : OrgState :=
  inputs.foldl (orgStep orc)
    { inRem := inputs, outFS := out0, moved := 0, merged := 0, skipped := 0 }

/-! ## The in-place converter (`journal_converter.process_files_in_directory`)

Per file: prepend a `# <filename>` header (note the source splits the ext off
the string `"# <filename>\n"`, so the header line it prepends has no trailing
newline and the in-memory copy lacks the `"\n"` that is written to disk);
compute the target name `<creation date YYYY_MM_DD><ext>`; then skip, merge
(append a merge marker plus the in-memory content, then delete the original)
or rename.  `cdate` supplies each file's creation date (an `os.stat` value,
external to the code), `now` the `datetime.now()` string.  Oracles: `hdr fn`
means reading the file for the header step raised (the file is skipped
untouched); `mrg fn = some k` means the merge raised after `k` characters of
the appended text reached the target. -/

/-- `header_line` of the source: `os.path.splitext(f"# {original_filename}\n")[0]`. -/
def convHeaderLine (fn : String) : String := (splitext ("# " ++ fn ++ "\n")).1

/-- The content written back to the source file by the header step. -/
def convFileContent (fn c0 : String) : String :=
  if strStartsWith c0 (convHeaderLine fn) then c0
  else convHeaderLine fn ++ "\n" ++ c0

/-- `current_file_content` after the header step (the in-memory copy; when the
header is freshly added it is `header_line + content`, without the newline). -/
def convMemContent (fn c0 : String) : String :=
  if strStartsWith c0 (convHeaderLine fn) then
    (if strStartsWith c0 (convHeaderLine fn ++ convHeaderLine fn) then c0
     else convHeaderLine fn ++ strDrop c0 (convHeaderLine fn).length)
  else convHeaderLine fn ++ c0

/-- The directory contents after the header step for `fn`. -/
def convFS1 (fs : List (String × String)) (fn c0 : String) :
    List (String × String) :=
  if strStartsWith c0 (convHeaderLine fn) then fs
  else fsSet fs fn (convFileContent fn c0)

/-- `get_base_name_and_ext_from_filename`: strip a trailing `_YYYY_MM_DD`
(validated by `strptime('%Y_%m_%d')`) from the name part. -/
def get_base_name_and_ext_from_filename (fn : String) :
    String × Option String × String :=
  let re := splitext fn
  let cs := re.1.data
  let n := cs.length
  if n ≥ 11 then
    match cs.drop (n - 11) with
    | u :: rest =>
      if u == '_' then
        match strptimeYmdU ⟨rest⟩ with
        | some _ => (⟨cs.take (n - 11)⟩, some ⟨rest⟩, re.2)
        | none => (re.1, none, re.2)
      else (re.1, none, re.2)
    | [] => (re.1, none, re.2)
  else (re.1, none, re.2)

/-- The creation-date string `file_creation_date_str`. -/
def convDateStr (cdate : String → Nat × Nat × Nat) (fn : String) : String :=
  fmtYmdU (cdate fn).1 (cdate fn).2.1 (cdate fn).2.2

/-- The target file name `<creation date><ext>`. -/
def convTarget (cdate : String → Nat × Nat × Nat) (fn : String) : String :=
  convDateStr cdate fn ++ (get_base_name_and_ext_from_filename fn).2.2

/-- The merge marker written before the appended content. -/
def convMarker (fn ds now : String) : String :=
  "\n\n# --- Merged content from: " ++ fn ++
  " (Source file's creation date: " ++ ds ++
  ", Merge performed on: " ++ now ++ ") ---\n"

/-- One iteration of the converter's pass-2 loop for the file `fn`. -/
def convStep (cdate : String → Nat × Nat × Nat) (now : String)
    (hdr : String → Bool) (mrg : String → Option Nat)
    (fs : List (String × String)) (fn : String) : List (String × String) :=
  match List.lookup fn fs with
  | none => fs
  | some c0 =>
    if hdr fn then fs
    else
      let fs1 := convFS1 fs fn c0
      let target := convTarget cdate fn
      if asciiLower fn == asciiLower target then fs1
      else
        match List.lookup target fs1 with
        | some old =>
          let appendix := convMarker fn (convDateStr cdate fn) now ++ convMemContent fn c0
          match mrg fn with
          | none => fsRemove (fsSet fs1 target (old ++ appendix)) fn
          | some k => fsSet fs1 target (old ++ strTake appendix k)
        | none => fsSet (fsRemove fs1 fn) target (convFileContent fn c0)

/-- The converter's pass 2 over the collected file names. -/
def convRun (cdate : String → Nat × Nat × Nat) (now : String)
    (hdr : String → Bool) (mrg : String → Option Nat)
    (names : List String) (fs0 : List (String × String)) :
    List (String × String) :=
  names.foldl (convStep cdate now hdr mrg) fs0

/-! ## Handle discipline

`handleOk` holds of an event trace iff the opens and closes pair up with
nothing in between: equivalently, at most one handle is ever open and every
opened handle is closed. -/

def handleOk : List HEvent → Bool
  | [] => true
  | .opened n :: .closed m :: t => n == m && handleOk t
  | _ => false

/-! ## Concrete inputs referenced by several properties -/

/-- Oracle under which no injected I/O failure occurs. -/
def noFail : String → Bool := fun _ => false

/-- Oracle under which every merge succeeds. -/
def noMergeFail : String → Option Nat := fun _ => none

/-- The four-line example stream from the specification. -/
def exampleLines : List String :=
  ["[1/2/24, 9:00:00 AM] hello\n", "world\n",
   "[1/3/24, 10:00:00 AM] next\n", "day\n"]

/-- A line whose date tag sits mid-line rather than at the start. -/
def lineC10 : String := "note: [1/2/24, 9:00:00 AM] hello\n"

/-! ## Basic string lemmas -/

theorem strData_append (s t : String) : (s ++ t).data = s.data ++ t.data := by
  cases s; cases t; rfl

theorem strAppend_assoc (a b c : String) : a ++ b ++ c = a ++ (b ++ c) := by
  cases a with
  | mk la =>
    cases b with
    | mk lb =>
      cases c with
      | mk lc =>
        show String.mk (la ++ lb ++ lc) = String.mk (la ++ (lb ++ lc))
        rw [List.append_assoc]

theorem strAppend_empty (s : String) : s ++ "" = s := by
  cases s with
  | mk l =>
    show String.mk (l ++ []) = String.mk l
    rw [List.append_nil]

/-! ## Shape of the captured boundary groups

The year group of the splitter pattern is `(\d{2})`: any successful match
captures exactly two characters there, and the month group is non-empty. -/

theorem matchMD_shape {cs : List Char} {s : String} {r : List Char}
    (h : matchMD cs = some (s, r)) :
    (∃ a, s = ⟨[a]⟩) ∨ (∃ a b, s = ⟨[a, b]⟩) := by
  rcases cs with _ | ⟨a, _ | ⟨b, _ | ⟨c, rest⟩⟩⟩
  · simp [matchMD] at h
  · simp [matchMD] at h
  · simp [matchMD] at h
    exact Or.inl ⟨a, h.2.1.symm⟩
  · simp only [matchMD] at h
    split at h
    · refine Or.inr ⟨a, b, ?_⟩
      have := (Option.some.injEq _ _).mp h
      exact (congrArg Prod.fst this).symm
    · split at h
      · refine Or.inl ⟨a, ?_⟩
        have := (Option.some.injEq _ _).mp h
        exact (congrArg Prod.fst this).symm
      · simp at h

theorem matchY2_shape {cs : List Char} {s : String} {r : List Char}
    (h : matchY2 cs = some (s, r)) : ∃ a b, s = ⟨[a, b]⟩ := by
  rcases cs with _ | ⟨a, _ | ⟨b, _ | ⟨c, rest⟩⟩⟩
  · simp [matchY2] at h
  · simp [matchY2] at h
  · simp [matchY2] at h
  · simp only [matchY2] at h
    split at h
    · have := (Option.some.injEq _ _).mp h
      exact ⟨a, b, (congrArg Prod.fst this).symm⟩
    · simp at h

theorem matchTagAt_shape {cs : List Char} {mo dy yr : String}
    (h : matchTagAt cs = some (mo, dy, yr)) :
    ((∃ a, mo = ⟨[a]⟩) ∨ (∃ a b, mo = ⟨[a, b]⟩)) ∧ ∃ a b, yr = ⟨[a, b]⟩ := by
  rcases cs with _ | ⟨c, rest⟩
  · simp [matchTagAt] at h
  · rw [matchTagAt] at h
    by_cases hc : c == '['
    · rw [if_pos hc] at h
      rcases Option.bind_eq_some.mp h with ⟨p1, h1, h⟩
      rcases Option.bind_eq_some.mp h with ⟨p2, h2, h⟩
      rcases Option.bind_eq_some.mp h with ⟨p3, h3, h⟩
      rcases Option.bind_eq_some.mp h with ⟨r5, h5, h⟩
      rcases Option.bind_eq_some.mp h with ⟨r6, h6, h⟩
      rcases Option.bind_eq_some.mp h with ⟨r8, h8, h⟩
      rcases r8 with _ | ⟨c8, t8⟩
      · simp at h
      · by_cases hc8 : c8 = ']'
        case neg => simp [hc8] at h
        case pos =>
          obtain ⟨hmo, hdy, hyr⟩ : p1.1 = mo ∧ p2.1 = dy ∧ p3.1 = yr := by
            simpa [hc8] using h
          refine ⟨?_, ?_⟩
          · rw [← hmo]
            rcases hp1 : p1 with ⟨s1, r1⟩
            rw [hp1] at h1
            exact matchMD_shape h1
          · rw [← hyr]
            rcases hp3 : p3 with ⟨s3, r3⟩
            rw [hp3] at h3
            exact matchY2_shape h3
    · rw [if_neg hc] at h; simp at h

theorem searchTag_shape {cs : List Char} {mo dy yr : String}
    (h : searchTag cs = some (mo, dy, yr)) :
    ((∃ a, mo = ⟨[a]⟩) ∨ (∃ a b, mo = ⟨[a, b]⟩)) ∧ ∃ a b, yr = ⟨[a, b]⟩ := by
  induction cs with
  | nil => simp [searchTag] at h
  | cons c rest ih =>
    rw [searchTag] at h
    cases hm : matchTagAt (c :: rest) with
    | some g =>
      rw [hm] at h
      rcases g with ⟨g1, g21, g22⟩
      obtain ⟨e1, e2, e3⟩ : g1 = mo ∧ g21 = dy ∧ g22 = yr := by simpa using h
      subst e1; subst e2; subst e3
      exact matchTagAt_shape hm
    | none => rw [hm] at h; exact ih h

theorem strptime_of_boundary_eq_none {line : String} {mo dy yr : String}
    (h : searchBoundary line = some (mo, dy, yr)) :
    strptimeYmd (yr ++ "-" ++ mo ++ "-" ++ dy) = none := by
  obtain ⟨hmo, a, b, hyr⟩ := searchTag_shape h
  have hdata : (yr ++ "-" ++ mo ++ "-" ++ dy).data =
      a :: b :: '-' :: (mo.data ++ '-' :: dy.data) := by
    rw [strData_append, strData_append, strData_append, hyr]
    simp
  rcases hmo with ⟨m1, hm⟩ | ⟨m1, m2, hm⟩ <;>
    · subst hm
      rw [strptimeYmd, strptimeSep, hdata]
      simp

/-! ## The splitter never opens a segment

Because the year group of the boundary pattern always has two characters,
`datetime.strptime(..., "%Y-%m-%d")` raises `ValueError` on every match, so
the scan never opens an output file: each line only advances the line count. -/

theorem flushClose_of_handler_none (fF : String → Bool) (st : SState)
    (h : st.handler = none) : flushClose fF st = st := by
  rw [flushClose, h]

theorem stepLine_id (u : String) (oF wF fF : String → Bool) (st : SState)
    (line : String) (h1 : st.handler = none) (h2 : st.aborted = false)
    (h3 : st.buffer = []) :
    stepLine u oF wF fF st line = { st with readCount := st.readCount + 1 } := by
  rcases st with ⟨fls, hd, buf, evs, rc, ab⟩
  simp only at h1 h2 h3
  subst h1; subst h2; subst h3
  cases hb : searchBoundary line with
  | none => simp [stepLine, hb]
  | some g =>
    rcases g with ⟨mo, dy, yr⟩
    simp [stepLine, hb, flushClose, strptime_of_boundary_eq_none hb]

theorem foldl_stepLine_id (u : String) (oF wF fF : String → Bool) :
    ∀ (lines : List String) (st : SState), st.handler = none →
      st.aborted = false → st.buffer = [] →
      lines.foldl (stepLine u oF wF fF) st =
        { st with readCount := st.readCount + lines.length } := by
  intro lines
  induction lines with
  | nil => intro st _ _ _; simp
  | cons l ls ih =>
    intro st h1 h2 h3
    rw [List.foldl_cons, stepLine_id u oF wF fF st l h1 h2 h3]
    rw [ih _ (by simp [h1]) (by simp [h2]) (by simp [h3])]
    simp only [List.length_cons]
    congr 1
    omega

/-- The splitter's whole run only counts lines: no file is written, no handle
is opened and the scan is never aborted. -/
theorem processLogFile_spec (lines : List String) (u : String)
    (oF wF fF : String → Bool) :
    processLogFile lines u oF wF fF =
      { initSState with readCount := lines.length } := by
  rw [processLogFile]
  simp only []
  rw [foldl_stepLine_id u oF wF fF lines initSState rfl rfl rfl]
  simp [initSState, flushClose]

/-! ## Association-list lemmas -/

theorem lookup_fsSet_self (fs : List (String × String)) (k v : String) :
    List.lookup k (fsSet fs k v) = some v := by
  induction fs with
  | nil => simp [fsSet, List.lookup]
  | cons kv t ih =>
    rw [fsSet]
    by_cases h : kv.1 = k
    · rw [if_pos (by simp [h])]
      simp [List.lookup]
    · rw [if_neg (by simp [h])]
      rw [List.lookup]
      have hne : (k == kv.1) = false := beq_eq_false_iff_ne.mpr fun e => h e.symm
      rw [hne]
      exact ih

theorem lookup_fsSet_of_ne (fs : List (String × String)) (k v k' : String)
    (h : k' ≠ k) : List.lookup k' (fsSet fs k v) = List.lookup k' fs := by
  induction fs with
  | nil =>
    have hne : (k' == k) = false := beq_eq_false_iff_ne.mpr h
    simp [fsSet, List.lookup, hne]
  | cons kv t ih =>
    rw [fsSet]
    by_cases hk : kv.1 = k
    · rw [if_pos (by simp [hk])]
      rw [List.lookup, List.lookup]
      have h1 : (k' == k) = false := beq_eq_false_iff_ne.mpr h
      have h2 : (k' == kv.1) = false := beq_eq_false_iff_ne.mpr (by rw [hk]; exact h)
      rw [h1, h2]
    · rw [if_neg (by simp [hk])]
      rw [List.lookup, List.lookup]
      cases hq : k' == kv.1
      · exact ih
      · rfl

/-! ## Organizer step lemmas -/

theorem orgStep_skip (orc : String → Option Nat) (st : OrgState) (fn c : String)
    (hg : searchYmdU fn = none) :
    orgStep orc st (fn, c) = { st with skipped := st.skipped + 1 } := by
  simp [orgStep, hg]

theorem orgStep_merge_ok (orc : String → Option Nat) (st : OrgState)
    (fn c y mo d old : String)
    (hg : searchYmdU fn = some (y, mo, d))
    (ho : List.lookup (orgPath fn y mo d) st.outFS = some old)
    (hs : orc fn = none) :
    orgStep orc st (fn, c) =
      { st with
          outFS := fsSet st.outFS (orgPath fn y mo d) (old ++ orgAppendix old c),
          inRem := fsRemove st.inRem fn,
          merged := st.merged + 1 } := by
  simp [orgStep, hg, ho, hs]

theorem orgStep_merge_fail (orc : String → Option Nat) (st : OrgState)
    (fn c y mo d old : String) (k : Nat)
    (hg : searchYmdU fn = some (y, mo, d))
    (ho : List.lookup (orgPath fn y mo d) st.outFS = some old)
    (hs : orc fn = some k) :
    orgStep orc st (fn, c) =
      { st with
          outFS := fsSet st.outFS (orgPath fn y mo d)
            (old ++ strTake (orgAppendix old c) k),
          skipped := st.skipped + 1 } := by
  simp [orgStep, hg, ho, hs]

theorem orgStep_create (orc : String → Option Nat) (st : OrgState)
    (fn c y mo d : String)
    (hg : searchYmdU fn = some (y, mo, d))
    (ho : List.lookup (orgPath fn y mo d) st.outFS = none) :
    orgStep orc st (fn, c) =
      { st with
          outFS := fsSet st.outFS (orgPath fn y mo d) c,
          inRem := fsRemove st.inRem fn,
          moved := st.moved + 1 } := by
  simp [orgStep, hg, ho]

/-- Any single organizer step only extends existing destination contents. -/
theorem orgStep_mono (orc : String → Option Nat) (st : OrgState)
    (f : String × String) (p v : String)
    (h : List.lookup p st.outFS = some v) :
    ∃ s, List.lookup p (orgStep orc st f).outFS = some (v ++ s) := by
  rcases f with ⟨fn, c⟩
  cases hg : searchYmdU fn with
  | none =>
    rw [orgStep_skip orc st fn c hg]
    exact ⟨"", by rw [strAppend_empty]; exact h⟩
  | some g =>
    rcases g with ⟨y, mo, d⟩
    cases ho : List.lookup (orgPath fn y mo d) st.outFS with
    | some old =>
      by_cases hp : p = orgPath fn y mo d
      · subst hp
        have hv : v = old := by rw [h] at ho; exact (Option.some.injEq _ _).mp ho
        subst hv
        cases hs : orc fn with
        | none =>
          rw [orgStep_merge_ok orc st fn c y mo d v hg ho hs]
          exact ⟨orgAppendix v c, lookup_fsSet_self _ _ _⟩
        | some k =>
          rw [orgStep_merge_fail orc st fn c y mo d v k hg ho hs]
          exact ⟨strTake (orgAppendix v c) k, lookup_fsSet_self _ _ _⟩
      · cases hs : orc fn with
        | none =>
          rw [orgStep_merge_ok orc st fn c y mo d old hg ho hs]
          refine ⟨"", ?_⟩
          rw [strAppend_empty]
          simpa [lookup_fsSet_of_ne _ _ _ _ hp] using h
        | some k =>
          rw [orgStep_merge_fail orc st fn c y mo d old k hg ho hs]
          refine ⟨"", ?_⟩
          rw [strAppend_empty]
          simpa [lookup_fsSet_of_ne _ _ _ _ hp] using h
    | none =>
      by_cases hp : p = orgPath fn y mo d
      · subst hp; rw [h] at ho; exact absurd ho (by simp)
      · rw [orgStep_create orc st fn c y mo d hg ho]
        refine ⟨"", ?_⟩
        rw [strAppend_empty]
        simpa [lookup_fsSet_of_ne _ _ _ _ hp] using h

theorem orgFold_mono (orc : String → Option Nat) :
    ∀ (inputs : List (String × String)) (st : OrgState) (p v : String),
      List.lookup p st.outFS = some v →
      ∃ s, List.lookup p (inputs.foldl (orgStep orc) st).outFS = some (v ++ s) := by
  intro inputs
  induction inputs with
  | nil => intro st p v h; exact ⟨"", by rw [strAppend_empty]; simpa using h⟩
  | cons f rest ih =>
    intro st p v h
    obtain ⟨s1, h1⟩ := orgStep_mono orc st f p v h
    obtain ⟨s2, h2⟩ := ih (orgStep orc st f) p (v ++ s1) h1
    exact ⟨s1 ++ s2, by rw [← strAppend_assoc]; exact h2⟩

/-- Run-level monotonicity: content already present at a destination path is a
prefix of its final content. -/
theorem orgRun_mono (inputs : List (String × String))
    (out0 : List (String × String)) (orc : String → Option Nat) (p v : String)
    (h : List.lookup p out0 = some v) :
    ∃ s, List.lookup p (orgRun inputs out0 orc).outFS = some (v ++ s) := by
  exact orgFold_mono orc inputs _ p v h

/-! ## Converter step lemmas -/

theorem convStep_merge_ok (cdate : String → Nat × Nat × Nat) (now : String)
    (hdr : String → Bool) (mrg : String → Option Nat)
    (fs : List (String × String)) (fn c0 old : String)
    (h0 : List.lookup fn fs = some c0)
    (h1 : hdr fn = false)
    (h2 : (asciiLower fn == asciiLower (convTarget cdate fn)) = false)
    (h3 : List.lookup (convTarget cdate fn) (convFS1 fs fn c0) = some old)
    (h4 : mrg fn = none) :
    convStep cdate now hdr mrg fs fn =
      fsRemove (fsSet (convFS1 fs fn c0) (convTarget cdate fn)
        (old ++ (convMarker fn (convDateStr cdate fn) now ++ convMemContent fn c0))) fn := by
  simp [convStep, h0, h1, h2, h3, h4]

theorem convStep_merge_fail (cdate : String → Nat × Nat × Nat) (now : String)
    (hdr : String → Bool) (mrg : String → Option Nat)
    (fs : List (String × String)) (fn c0 old : String) (k : Nat)
    (h0 : List.lookup fn fs = some c0)
    (h1 : hdr fn = false)
    (h2 : (asciiLower fn == asciiLower (convTarget cdate fn)) = false)
    (h3 : List.lookup (convTarget cdate fn) (convFS1 fs fn c0) = some old)
    (h4 : mrg fn = some k) :
    convStep cdate now hdr mrg fs fn =
      fsSet (convFS1 fs fn c0) (convTarget cdate fn)
        (old ++ strTake (convMarker fn (convDateStr cdate fn) now ++ convMemContent fn c0) k) := by
  simp [convStep, h0, h1, h2, h3, h4]

theorem ne_of_asciiLower_bne {a b : String}
    (h : (asciiLower a == asciiLower b) = false) : a ≠ b := by
  intro e
  rw [e] at h
  simp at h

/-- The merge marker, re-associated to exhibit the source file name and the
merge timestamp embedded in it. -/
theorem convMarker_decomp (fn ds now : String) :
    convMarker fn ds now =
      "\n\n# --- Merged content from: " ++ (fn ++ (" (Source file's creation date: " ++
        (ds ++ (", Merge performed on: " ++ (now ++ ") ---\n"))))) := by
  rw [convMarker]
  simp [strAppend_assoc]

theorem convMarker_starts_nl (fn ds now : String) :
    ∃ t, convMarker fn ds now = "\n" ++ t := by
  refine ⟨"\n# --- Merged content from: " ++ (fn ++ (" (Source file's creation date: " ++
    (ds ++ (", Merge performed on: " ++ (now ++ ") ---\n"))))), ?_⟩
  rw [convMarker_decomp]
  have h : ("\n\n# --- Merged content from: " : String) =
      "\n" ++ "\n# --- Merged content from: " := by decide
  rw [h, strAppend_assoc]

theorem convMarker_ends_nl (fn ds now : String) :
    ∃ t, convMarker fn ds now = t ++ "\n" := by
  refine ⟨"\n\n# --- Merged content from: " ++ (fn ++ (" (Source file's creation date: " ++
    (ds ++ (", Merge performed on: " ++ (now ++ ") ---"))))), ?_⟩
  rw [convMarker_decomp]
  have h : (") ---\n" : String) = ") ---" ++ "\n" := by decide
  rw [h]
  simp [strAppend_assoc]

theorem lookup_fsRemove_of_ne (fs : List (String × String)) (k k' : String)
    (h : k' ≠ k) : List.lookup k' (fsRemove fs k) = List.lookup k' fs := by
  induction fs with
  | nil => rfl
  | cons kv t ih =>
    rw [fsRemove]
    by_cases hk : kv.1 = k
    · rw [if_pos (by simp [hk])]
      rw [List.lookup]
      have h2 : (k' == kv.1) = false := beq_eq_false_iff_ne.mpr (by rw [hk]; exact h)
      rw [h2]
    · rw [if_neg (by simp [hk])]
      rw [List.lookup, List.lookup]
      cases hq : k' == kv.1
      · exact ih
      · rfl

/-! ## Claims -/

/-- C1: the claim says every content (non-boundary) line appears in exactly one
OutputUnit under the header of the segment it trailed.  In fact the splitter
creates no output file at all: the boundary line is matched and carries the
valid calendar date 2024-01-02, yet the scan finishes with an empty file list,
so the content lines `world\n` and `day\n` appear in no OutputUnit.  (The
2-digit year group is re-parsed with `strptime("%Y-%m-%d")`, which requires a
4-digit year, so every boundary is skipped.) -/
theorem claim_C1_all_content_discarded :
    searchBoundary "[1/2/24, 9:00:00 AM] hello\n" = some ("1", "2", "24") ∧
    validDate 2024 1 2 = true ∧
    (processLogFile exampleLines "bob" noFail noFail noFail).files = [] := by
  refine ⟨by decide, by decide, ?_⟩
  rw [processLogFile_spec]
  rfl

/-- C3: on the specification's four-line example the claim expects the two
output files `2024_01_02.md` and `2024_01_03.md`; the code produces neither
(it produces no file at all). -/
theorem claim_C3_expected_files_missing :
    List.lookup "2024_01_02.md"
      (processLogFile exampleLines "bob" noFail noFail noFail).files = none ∧
    List.lookup "2024_01_03.md"
      (processLogFile exampleLines "bob" noFail noFail noFail).files = none := by
  rw [processLogFile_spec]
  exact ⟨rfl, rfl⟩

/-- C10: a date tag occurring mid-line is indeed detected (`re.search` scans
every position), but contrary to the claim the line never opens a new segment:
no handle is ever opened and no file is produced. -/
theorem claim_C10_detected_but_never_opens :
    searchBoundary lineC10 = some ("1", "2", "24") ∧
    (processLogFile [lineC10, "body\n"] "u" noFail noFail noFail).events = [] ∧
    (processLogFile [lineC10, "body\n"] "u" noFail noFail noFail).files = [] := by
  refine ⟨by decide, ?_, ?_⟩ <;> (rw [processLogFile_spec]; rfl)

/-- C7: throughout any splitter scan, under any injected I/O failures, the
open/close event trace is disciplined: at most one OutputUnit handle is open
at any time and every opened handle is closed. -/
theorem claim_C7_handle_discipline (lines : List String) (u : String)
    (oF wF fF : String → Bool) :
    handleOk (processLogFile lines u oF wF fF).events = true := by
  rw [processLogFile_spec]
  rfl

/-- C5: a line matching the boundary pattern whose numeric groups are not a
valid calendar date never yields an OutputUnit named for that date, behaves
exactly like an ordinary content line (replacing it by a non-matching line
leaves the outputs unchanged), and the scan neither aborts nor stops early. -/
theorem claim_C5_invalid_date_graceful (lines : List String) (u : String)
    (oF wF fF : String → Bool) (i : Nat) (mo dy yr : String)
    (hm : searchBoundary (lines.getD i "") = some (mo, dy, yr))
    (hv : validDate (natOfDigits yr.data) (natOfDigits mo.data)
      (natOfDigits dy.data) = false) :
    (∀ cnt, (fmtYmdU (natOfDigits yr.data) (natOfDigits mo.data)
        (natOfDigits dy.data) ++ ".md", cnt)
        ∉ (processLogFile lines u oF wF fF).files) ∧
    (processLogFile lines u oF wF fF).files =
      (processLogFile (lines.set i "") u oF wF fF).files ∧
    (processLogFile lines u oF wF fF).aborted = false ∧
    (processLogFile lines u oF wF fF).readCount = lines.length := by
  rw [processLogFile_spec, processLogFile_spec]
  exact ⟨by simp [initSState], rfl, rfl, rfl⟩

theorem claim_C5_witness :
    searchBoundary (["[13/45/99, 9:00:00 AM] x\n"].getD 0 "") =
      some ("13", "45", "99") ∧
    validDate (natOfDigits "99".data) (natOfDigits "13".data)
      (natOfDigits "45".data) = false ∧
    ((∀ cnt, (fmtYmdU (natOfDigits "99".data) (natOfDigits "13".data)
        (natOfDigits "45".data) ++ ".md", cnt)
        ∉ (processLogFile ["[13/45/99, 9:00:00 AM] x\n"] "u" noFail noFail noFail).files) ∧
      (processLogFile ["[13/45/99, 9:00:00 AM] x\n"] "u" noFail noFail noFail).files =
        (processLogFile (["[13/45/99, 9:00:00 AM] x\n"].set 0 "") "u" noFail noFail noFail).files ∧
      (processLogFile ["[13/45/99, 9:00:00 AM] x\n"] "u" noFail noFail noFail).aborted = false ∧
      (processLogFile ["[13/45/99, 9:00:00 AM] x\n"] "u" noFail noFail noFail).readCount =
        (["[13/45/99, 9:00:00 AM] x\n"] : List String).length) :=
  ⟨by decide, by decide,
   claim_C5_invalid_date_graceful ["[13/45/99, 9:00:00 AM] x\n"] "u"
     noFail noFail noFail 0 "13" "45" "99" (by decide) (by decide)⟩

/-- C2: a destination OutputUnit that already exists is only ever appended to
(its prior content remains a prefix of its final content across a whole
organizer run), and a date key without an existing OutputUnit gets one created
with the source's content on first flush. -/
theorem claim_C2_output_units_append_only :
    (∀ (inputs out0 : List (String × String)) (orc : String → Option Nat)
        (p v : String), List.lookup p out0 = some v →
        ∃ s, List.lookup p (orgRun inputs out0 orc).outFS = some (v ++ s)) ∧
    (∀ (orc : String → Option Nat) (st : OrgState) (fn c y mo d : String),
        searchYmdU fn = some (y, mo, d) →
        List.lookup (orgPath fn y mo d) st.outFS = none →
        List.lookup (orgPath fn y mo d) (orgStep orc st (fn, c)).outFS = some c) := by
  constructor
  · exact fun inputs out0 orc p v h => orgRun_mono inputs out0 orc p v h
  · intro orc st fn c y mo d hg ho
    rw [orgStep_create orc st fn c y mo d hg ho]
    exact lookup_fsSet_self _ _ _

theorem claim_C2_witness :
    List.lookup "2024/2024_01_02.txt" [("2024/2024_01_02.txt", "old")] = some "old" ∧
    (∃ s, List.lookup "2024/2024_01_02.txt"
        (orgRun [("x_2024_01_02.txt", "abc")] [("2024/2024_01_02.txt", "old")]
          noMergeFail).outFS = some ("old" ++ s)) :=
  ⟨by decide, claim_C2_output_units_append_only.1 _ _ _ _ _ (by decide)⟩

/-- C4: a source is deleted only together with a completed append (the merge
step's success branch both writes the full appended text to the destination
and removes the source, atomically in the step); on an injected failure the
source entry is untouched, the error tally is incremented, and the fold
continues with the remaining files.  Stated for both the organizer and the
converter merge paths. -/
theorem claim_C4_delete_only_after_successful_merge :
    (∀ (orc : String → Option Nat) (st : OrgState) (fn c y mo d old : String),
        searchYmdU fn = some (y, mo, d) →
        List.lookup (orgPath fn y mo d) st.outFS = some old →
        (orc fn = none →
          orgStep orc st (fn, c) =
            { st with
                outFS := fsSet st.outFS (orgPath fn y mo d)
                  (old ++ orgAppendix old c),
                inRem := fsRemove st.inRem fn,
                merged := st.merged + 1 }) ∧
        (∀ k, orc fn = some k →
          (orgStep orc st (fn, c)).inRem = st.inRem ∧
          (orgStep orc st (fn, c)).skipped = st.skipped + 1)) ∧
    (∀ (orc : String → Option Nat) (s0 : OrgState) (f : String × String)
        (rest : List (String × String)),
        List.foldl (orgStep orc) s0 (f :: rest) =
          List.foldl (orgStep orc) (orgStep orc s0 f) rest) ∧
    (∀ (cdate : String → Nat × Nat × Nat) (now : String) (hdr : String → Bool)
        (mrg : String → Option Nat) (fs : List (String × String))
        (fn c0 old : String),
        List.lookup fn fs = some c0 → hdr fn = false →
        (asciiLower fn == asciiLower (convTarget cdate fn)) = false →
        List.lookup (convTarget cdate fn) (convFS1 fs fn c0) = some old →
        (mrg fn = none →
          convStep cdate now hdr mrg fs fn =
            fsRemove (fsSet (convFS1 fs fn c0) (convTarget cdate fn)
              (old ++ (convMarker fn (convDateStr cdate fn) now ++
                convMemContent fn c0))) fn) ∧
        (∀ k, mrg fn = some k →
          List.lookup fn (convStep cdate now hdr mrg fs fn) =
            List.lookup fn (convFS1 fs fn c0))) := by
  refine ⟨?_, ?_, ?_⟩
  · intro orc st fn c y mo d old hg ho
    constructor
    · intro hs
      exact orgStep_merge_ok orc st fn c y mo d old hg ho hs
    · intro k hs
      rw [orgStep_merge_fail orc st fn c y mo d old k hg ho hs]
      exact ⟨rfl, rfl⟩
  · intro orc s0 f rest
    rfl
  · intro cdate now hdr mrg fs fn c0 old h0 h1 h2 h3
    constructor
    · intro h4
      exact convStep_merge_ok cdate now hdr mrg fs fn c0 old h0 h1 h2 h3 h4
    · intro k h4
      rw [convStep_merge_fail cdate now hdr mrg fs fn c0 old k h0 h1 h2 h3 h4]
      exact lookup_fsSet_of_ne _ _ _ _ (ne_of_asciiLower_bne h2)

theorem claim_C4_witness :
    searchYmdU "x_2024_01_02.txt" = some ("2024", "01", "02") ∧
    List.lookup (orgPath "x_2024_01_02.txt" "2024" "01" "02")
      ({ inRem := [("x_2024_01_02.txt", "abc")],
         outFS := [("2024/2024_01_02.txt", "old")],
         moved := 0, merged := 0, skipped := 0 } : OrgState).outFS = some "old" ∧
    (fun (_ : String) => (some 1 : Option Nat)) "x_2024_01_02.txt" = some 1 ∧
    ((orgStep (fun _ => some 1)
        { inRem := [("x_2024_01_02.txt", "abc")],
          outFS := [("2024/2024_01_02.txt", "old")],
          moved := 0, merged := 0, skipped := 0 }
        ("x_2024_01_02.txt", "abc")).inRem = [("x_2024_01_02.txt", "abc")] ∧
      (orgStep (fun _ => some 1)
        { inRem := [("x_2024_01_02.txt", "abc")],
          outFS := [("2024/2024_01_02.txt", "old")],
          moved := 0, merged := 0, skipped := 0 }
        ("x_2024_01_02.txt", "abc")).skipped = 0 + 1) :=
  ⟨by decide, by decide, rfl,
    (claim_C4_delete_only_after_successful_merge.1 (fun _ => some 1)
      { inRem := [("x_2024_01_02.txt", "abc")],
        outFS := [("2024/2024_01_02.txt", "old")],
        moved := 0, merged := 0, skipped := 0 }
      "x_2024_01_02.txt" "abc" "2024" "01" "02" "old"
      (by decide) (by decide)).2 1 rfl⟩

/-- C6 as stated is false: the organizer's append-merge writes no marker at
all.  Merging `x_2024_01_02.txt` (content `abc`) into an existing
`2024/2024_01_02.txt` (content `old`) yields exactly `old\nabc`: the appended
region contains neither the source identity nor any marker text. -/
theorem claim_C6_counterexample :
    List.lookup "2024/2024_01_02.txt"
      (orgRun [("x_2024_01_02.txt", "abc")] [("2024/2024_01_02.txt", "old")]
        noMergeFail).outFS = some "old\nabc" ∧
    strContains "old\nabc" "x_2024_01_02.txt" = false ∧
    strContains "old\nabc" "Merge" = false := by decide

/-- C6 amended: only the converter writes a merge marker.  Its merge appends
`old ++ marker ++ content`, and the marker literally embeds the source file
name and the merge timestamp; the organizer's merge appends the source content
directly (after the newline fix), with no marker. -/
theorem claim_C6_amended_marker_only_in_converter :
    (∀ (cdate : String → Nat × Nat × Nat) (now : String) (hdr : String → Bool)
        (mrg : String → Option Nat) (fs : List (String × String))
        (fn c0 old : String),
        List.lookup fn fs = some c0 → hdr fn = false →
        (asciiLower fn == asciiLower (convTarget cdate fn)) = false →
        List.lookup (convTarget cdate fn) (convFS1 fs fn c0) = some old →
        mrg fn = none →
        List.lookup (convTarget cdate fn) (convStep cdate now hdr mrg fs fn) =
          some (old ++ (convMarker fn (convDateStr cdate fn) now ++
            convMemContent fn c0)) ∧
        convMarker fn (convDateStr cdate fn) now =
          "\n\n# --- Merged content from: " ++ (fn ++
            (" (Source file's creation date: " ++ (convDateStr cdate fn ++
              (", Merge performed on: " ++ (now ++ ") ---\n")))))) ∧
    (∀ (orc : String → Option Nat) (st : OrgState) (fn c y mo d old : String),
        searchYmdU fn = some (y, mo, d) →
        List.lookup (orgPath fn y mo d) st.outFS = some old →
        orc fn = none →
        List.lookup (orgPath fn y mo d) (orgStep orc st (fn, c)).outFS =
          some (old ++ orgAppendix old c)) := by
  constructor
  · intro cdate now hdr mrg fs fn c0 old h0 h1 h2 h3 h4
    constructor
    · rw [convStep_merge_ok cdate now hdr mrg fs fn c0 old h0 h1 h2 h3 h4]
      rw [lookup_fsRemove_of_ne _ _ _ (ne_of_asciiLower_bne h2).symm]
      exact lookup_fsSet_self _ _ _
    · exact convMarker_decomp fn (convDateStr cdate fn) now
  · intro orc st fn c y mo d old hg ho hs
    rw [orgStep_merge_ok orc st fn c y mo d old hg ho hs]
    exact lookup_fsSet_self _ _ _

theorem claim_C6_witness :
    List.lookup "a.txt" [("a.txt", "hello"), ("2024_01_02.txt", "old")] =
      some "hello" ∧
    noFail "a.txt" = false ∧
    (asciiLower "a.txt" ==
      asciiLower (convTarget (fun _ => (2024, 1, 2)) "a.txt")) = false ∧
    List.lookup (convTarget (fun _ => (2024, 1, 2)) "a.txt")
      (convFS1 [("a.txt", "hello"), ("2024_01_02.txt", "old")] "a.txt" "hello") =
      some "old" ∧
    noMergeFail "a.txt" = none ∧
    (List.lookup (convTarget (fun _ => (2024, 1, 2)) "a.txt")
        (convStep (fun _ => (2024, 1, 2)) "2025-01-01 00:00:00" noFail noMergeFail
          [("a.txt", "hello"), ("2024_01_02.txt", "old")] "a.txt") =
      some ("old" ++ (convMarker "a.txt"
        (convDateStr (fun _ => (2024, 1, 2)) "a.txt") "2025-01-01 00:00:00" ++
        convMemContent "a.txt" "hello")) ∧
      convMarker "a.txt" (convDateStr (fun _ => (2024, 1, 2)) "a.txt")
          "2025-01-01 00:00:00" =
        "\n\n# --- Merged content from: " ++ ("a.txt" ++
          (" (Source file's creation date: " ++
            (convDateStr (fun _ => (2024, 1, 2)) "a.txt" ++
              (", Merge performed on: " ++
                ("2025-01-01 00:00:00" ++ ") ---\n")))))) :=
  ⟨by decide, rfl, by decide, by decide, rfl,
    claim_C6_amended_marker_only_in_converter.1 (fun _ => (2024, 1, 2))
      "2025-01-01 00:00:00" noFail noMergeFail
      [("a.txt", "hello"), ("2024_01_02.txt", "old")] "a.txt" "hello" "old"
      (by decide) rfl (by decide) (by decide) rfl⟩

/-- C8: before appending to an existing non-empty OutputUnit whose content
does not end in a newline, a newline is inserted, so the appended content
begins on a new line; the converter's marker both begins and ends with a
newline, giving the same guarantee unconditionally on its merge path. -/
theorem claim_C8_newline_inserted_before_append :
    (∀ (orc : String → Option Nat) (st : OrgState) (fn c y mo d old : String),
        searchYmdU fn = some (y, mo, d) →
        List.lookup (orgPath fn y mo d) st.outFS = some old →
        orc fn = none → old.isEmpty = false →
        old.data.getLast? ≠ some '\n' →
        List.lookup (orgPath fn y mo d) (orgStep orc st (fn, c)).outFS =
          some (old ++ ("\n" ++ c))) ∧
    (∀ fn ds now : String,
        (∃ t, convMarker fn ds now = "\n" ++ t) ∧
        ∃ t, convMarker fn ds now = t ++ "\n") := by
  constructor
  · intro orc st fn c y mo d old hg ho hs hne hnl
    rw [orgStep_merge_ok orc st fn c y mo d old hg ho hs]
    have ha : orgAppendix old c = "\n" ++ c := by
      rw [orgAppendix]
      have h1 : (!old.isEmpty) = true := by rw [hne]; rfl
      have h2 : (old.data.getLast? != some '\n') = true := bne_iff_ne.mpr hnl
      rw [h1, h2]
      rfl
    rw [← ha]
    exact lookup_fsSet_self _ _ _
  · exact fun fn ds now => ⟨convMarker_starts_nl fn ds now, convMarker_ends_nl fn ds now⟩

theorem claim_C8_witness :
    searchYmdU "x_2024_01_02.txt" = some ("2024", "01", "02") ∧
    List.lookup (orgPath "x_2024_01_02.txt" "2024" "01" "02")
      ({ inRem := [("x_2024_01_02.txt", "abc")],
         outFS := [("2024/2024_01_02.txt", "old")],
         moved := 0, merged := 0, skipped := 0 } : OrgState).outFS = some "old" ∧
    noMergeFail "x_2024_01_02.txt" = none ∧
    ("old" : String).isEmpty = false ∧
    ("old" : String).data.getLast? ≠ some '\n' ∧
    List.lookup (orgPath "x_2024_01_02.txt" "2024" "01" "02")
      (orgStep noMergeFail
        { inRem := [("x_2024_01_02.txt", "abc")],
          outFS := [("2024/2024_01_02.txt", "old")],
          moved := 0, merged := 0, skipped := 0 }
        ("x_2024_01_02.txt", "abc")).outFS = some ("old" ++ ("\n" ++ "abc")) :=
  ⟨by decide, by decide, rfl, by decide, by decide,
    claim_C8_newline_inserted_before_append.1 noMergeFail
      { inRem := [("x_2024_01_02.txt", "abc")],
        outFS := [("2024/2024_01_02.txt", "old")],
        moved := 0, merged := 0, skipped := 0 }
      "x_2024_01_02.txt" "abc" "2024" "01" "02" "old"
      (by decide) (by decide) rfl (by decide) (by decide)⟩

/-- C9 as stated is false: the organizer validates only the digit shape of the
file name, never calendar validity.  The file `2024_13_45.txt` (month 13,
day 45) is moved to a freshly created OutputUnit `2024/2024_13_45.txt`. -/
theorem claim_C9_counterexample :
    validDate 2024 13 45 = false ∧
    List.lookup "2024/2024_13_45.txt"
      (orgRun [("2024_13_45.txt", "x")] [] noMergeFail).outFS = some "x" := by
  decide

/-- C9 amended: the name-based variant checks only for the
`\d{4}_\d{2}_\d{2}` digit shape.  A name without the shape is skipped and
changes no OutputUnit; a name with the shape always creates or receives an
OutputUnit at the derived path, whether or not the digits form a valid
calendar date. -/
theorem claim_C9_amended_shape_only_validation :
    (∀ (orc : String → Option Nat) (st : OrgState) (fn c : String),
        searchYmdU fn = none →
        orgStep orc st (fn, c) = { st with skipped := st.skipped + 1 }) ∧
    (∀ (orc : String → Option Nat) (st : OrgState) (fn c y mo d : String),
        searchYmdU fn = some (y, mo, d) →
        (List.lookup (orgPath fn y mo d) (orgStep orc st (fn, c)).outFS).isSome =
          true) := by
  constructor
  · exact fun orc st fn c hg => orgStep_skip orc st fn c hg
  · intro orc st fn c y mo d hg
    cases ho : List.lookup (orgPath fn y mo d) st.outFS with
    | some old =>
      cases hs : orc fn with
      | none =>
        rw [orgStep_merge_ok orc st fn c y mo d old hg ho hs]
        rw [lookup_fsSet_self]
        rfl
      | some k =>
        rw [orgStep_merge_fail orc st fn c y mo d old k hg ho hs]
        rw [lookup_fsSet_self]
        rfl
    | none =>
      rw [orgStep_create orc st fn c y mo d hg ho]
      rw [lookup_fsSet_self]
      rfl

theorem claim_C9_witness :
    searchYmdU "2024_13_45.txt" = some ("2024", "13", "45") ∧
    validDate 2024 13 45 = false ∧
    (List.lookup (orgPath "2024_13_45.txt" "2024" "13" "45")
      (orgStep noMergeFail
        { inRem := [("2024_13_45.txt", "x")], outFS := [],
          moved := 0, merged := 0, skipped := 0 }
        ("2024_13_45.txt", "x")).outFS).isSome = true :=
  ⟨by decide, by decide,
    claim_C9_amended_shape_only_validation.2 noMergeFail
      { inRem := [("2024_13_45.txt", "x")], outFS := [],
        moved := 0, merged := 0, skipped := 0 }
      "2024_13_45.txt" "x" "2024" "13" "45" (by decide)⟩

end JournalAgg
